import Mathlib

/-!
Verification development for the Cruxz NFT service.

Shallow embedding of the repository's original logic: the JS string
operations used by the code, the JSON value model (for `JSON.stringify` /
`JSON.parse` as used on metadata), the base64 and UTF-8 codecs behind
`Buffer`, the metadata builder, the private-key formatter, the mint
orchestrator `mintTextNFT` (with its external collaborators abstracted as
`Except`-valued environment fields and a call log), the wallet NFT
enumerator `getWalletNFTs`, the API-key middleware `validateApiKey`, and
the HTTP route handlers of the secured server variant.

JS strings are modelled as Lean `String` (sequences of Unicode scalar
values); string primitives (`trim`, `length`, `substring`, `startsWith`)
are modelled explicitly over the character list.
-/

set_option maxHeartbeats 1000000

namespace Cruxz

/-! ## JS string primitives -/

/-- Whitespace for the model of `String.prototype.trim`. -/
def jsWs (c : Char) : Bool :=
  c = ' ' || c = '\t' || c = '\n' || c = '\r'

/-- Model of `s.trim()`: drop whitespace from both ends. -/
def jsTrim (s : String) : String :=
  ⟨((s.data.dropWhile jsWs).reverse.dropWhile jsWs).reverse⟩

/-- Model of `s.length` (character count). -/
def jsLength (s : String) : Nat := s.data.length

/-- Model of `s.substring(n)`. -/
def jsSubstringFrom (s : String) (n : Nat) : String := ⟨s.data.drop n⟩

/-- Model of `s.startsWith(p)`. -/
def jsStartsWith (s p : String) : Bool := p.data.isPrefixOf s.data

/-- Model of `s.substring(a, b)`. -/
def jsSubstring (s : String) (a b : Nat) : String := ⟨(s.data.take b).drop a⟩

/-- Truthiness of an optional JS string: `!x` is true when the field is
absent (`undefined`/`null`) or the empty string. -/
def jsFalsyOpt : Option String → Bool
  | none => true
  | some s => s = ""

/-- The `!x || x.trim() === ""` test used by the mint validations. -/
def jsMissingOrBlank : Option String → Bool
  | none => true
  | some s => jsTrim s = ""

/-! ## JSON value model

`JSON.parse` / `JSON.stringify` are platform functions; they are modelled
over this value type.  A number token is kept as its lexeme so that no
floating point enters the model (the repository's metadata contains no
numbers). -/

inductive Json where
  | null : Json
  | bool (b : Bool) : Json
  | num (lexeme : String) : Json
  | str (s : String) : Json
  | arr (elems : List Json) : Json
  | obj (fields : List (String × Json)) : Json

/-- Property read `j.k` on a parsed JSON value: `undefined` (`none`)
unless `j` is an object with field `k`. -/
def objGet (j : Json) (k : String) : Option Json :=
  match j with
  | .obj fields => fields.lookup k
  | _ => none

/-- JS truthiness of a JSON value (numbers are approximated by their
lexeme being `"0"`; the repository's metadata fields are strings, arrays
and objects, where the model is exact). -/
def jsonFalsy : Json → Bool
  | .null => true
  | .bool b => !b
  | .num lexeme => lexeme = "0"
  | .str s => s = ""
  | .arr _ => false
  | .obj _ => false

/-- `x || d` on an optional JSON value (absent property = `undefined`). -/
def jsonOr (v : Option Json) (d : Json) : Json :=
  match v with
  | none => d
  | some j => if jsonFalsy j then d else j

/-! ## NFT metadata (the Metadata Builder) -/

structure NftAttribute where
  trait_type : String
  value : String
deriving DecidableEq

structure NftMetadata where
  name : String
  description : String
  attributes : List NftAttribute
deriving DecidableEq

/-- `description || "CRUXZ NFT"`. -/
def jsOrDefault (v : Option String) (d : String) : String :=
  match v with
  | none => d
  | some s => if s = "" then d else s

/-- The metadata object literal of `mintTextNFT` (nftService lines
102-116).  `now` stands for `new Date().toISOString()`, the wall-clock
build timestamp. -/
def buildMetadata (text : String) (description : Option String) (now : String) :
    NftMetadata :=
  { name := "CRUXZ NFT"
  , description := jsOrDefault description "CRUXZ NFT"
  , attributes := [⟨"Text", text⟩, ⟨"Created At", now⟩] }

/-! ## JSON.stringify of the metadata object

`JSON.stringify` escapes `"`, `\` and control characters; all other
characters pass through literally, and no whitespace is emitted. -/

/-- Lowercase hex digit for `\u00XX` escapes. -/
def hexDigitChar (n : Nat) : Char :=
  "0123456789abcdef".data.getD n '0'

/-- `JSON.stringify` escaping of one character of a string value. -/
def escapeChar (c : Char) : List Char :=
  if c = '"' then ['\\', '"']
  else if c = '\\' then ['\\', '\\']
  else if c = '\x08' then ['\\', 'b']
  else if c = '\t' then ['\\', 't']
  else if c = '\n' then ['\\', 'n']
  else if c = '\x0c' then ['\\', 'f']
  else if c = '\r' then ['\\', 'r']
  else if c.toNat < 32 then
    ['\\', 'u', '0', '0', hexDigitChar (c.toNat / 16), hexDigitChar (c.toNat % 16)]
  else [c]

/-- Escaped body of a JSON string literal. -/
def escapeBody : List Char → List Char
  | [] => []
  | c :: cs => escapeChar c ++ escapeBody cs

/-- A JSON string literal, quotes included. -/
def jsonQuote (s : String) : List Char :=
  '"' :: (escapeBody s.data ++ ['"'])

/-- `JSON.stringify` of one attribute object (insertion order
`trait_type`, `value`). -/
def stringifyAttribute (a : NftAttribute) : List Char :=
  '\x7b' :: ("\"trait_type\":".data ++ jsonQuote a.trait_type ++
    ",\"value\":".data ++ jsonQuote a.value ++ ['\x7d'])

/-- `JSON.stringify(metadata)` for the builder's object (insertion order
`name`, `description`, `attributes`). -/
def stringifyMetadata (m : NftMetadata) : List Char :=
  '\x7b' :: ("\"name\":".data ++ jsonQuote m.name ++
    ",\"description\":".data ++ jsonQuote m.description ++
    ",\"attributes\":[".data ++
    (List.intercalate [','] (m.attributes.map stringifyAttribute)) ++ "]\x7d".data)

/-- The JSON value denoted by a built metadata object. -/
def metadataJson (m : NftMetadata) : Json :=
  .obj [("name", .str m.name), ("description", .str m.description),
    ("attributes", .arr (m.attributes.map fun a =>
      .obj [("trait_type", .str a.trait_type), ("value", .str a.value)]))]

/-! ## UTF-8 (Buffer.from(string) / buffer.toString()) -/

/-- UTF-8 encoding of one Unicode scalar value. -/
def utf8EncodeChar (c : Char) : List Nat :=
  let n := c.toNat
  if n < 0x80 then [n]
  else if n < 0x800 then [0xC0 + n / 64, 0x80 + n % 64]
  else if n < 0x10000 then
    [0xE0 + n / 4096, 0x80 + n / 64 % 64, 0x80 + n % 64]
  else
    [0xF0 + n / 262144, 0x80 + n / 4096 % 64, 0x80 + n / 64 % 64, 0x80 + n % 64]

/-- UTF-8 encoding of a character sequence (model of `Buffer.from(s)`). -/
def utf8Encode : List Char → List Nat
  | [] => []
  | c :: cs => utf8EncodeChar c ++ utf8Encode cs

/-- A UTF-8 continuation byte. -/
def utf8Cont (b : Nat) : Bool := 0x80 ≤ b && b < 0xC0

/-- Number of continuation bytes demanded by a lead byte (`none` for an
invalid lead byte). -/
def utf8ContCount (b : Nat) : Option Nat :=
  if b < 0x80 then some 0
  else if b < 0xC0 then none
  else if b < 0xE0 then some 1
  else if b < 0xF0 then some 2
  else if b < 0xF8 then some 3
  else none

/-- The scalar value of a lead byte plus its continuation bytes. -/
def utf8Val (b : Nat) : List Nat → Nat
  | [] => b
  | [b1] => (b - 0xC0) * 64 + (b1 - 0x80)
  | [b1, b2] => (b - 0xE0) * 4096 + (b1 - 0x80) * 64 + (b2 - 0x80)
  | [b1, b2, b3] =>
    (b - 0xF0) * 262144 + (b1 - 0x80) * 4096 + (b2 - 0x80) * 64 + (b3 - 0x80)
  | _ => 0

/-- UTF-8 decoding (model of `buffer.toString()`; ill-formed input is
reported as `none`). -/
def utf8Decode : List Nat → Option (List Char)
  | [] => some []
  | b :: rest =>
    match utf8ContCount b with
    | none => none
    | some k =>
      if (rest.take k).length = k ∧ (rest.take k).all utf8Cont then
        (utf8Decode (rest.drop k)).map (Char.ofNat (utf8Val b (rest.take k)) :: ·)
      else none
termination_by l => l.length
decreasing_by simp; omega

/-! ## Base64 (Buffer.toString("base64") / Buffer.from(b64, "base64")) -/

/-- The base64 alphabet. -/
def b64Alphabet : List Char :=
  "ABCDEFGHIJKLMNOPQRSTUVWXYZabcdefghijklmnopqrstuvwxyz0123456789+/".data

/-- The base64 digit for a 6-bit value. -/
def b64Char (n : Nat) : Char := b64Alphabet.getD n 'A'

/-- Standard base64 encoding with padding, three input bytes per four
output characters. -/
def base64Encode : List Nat → List Char
  | [] => []
  | [a] => [b64Char (a / 4), b64Char (a % 4 * 16), '=', '=']
  | [a, b] => [b64Char (a / 4), b64Char (a % 4 * 16 + b / 16), b64Char (b % 16 * 4), '=']
  | a :: b :: c :: rest =>
    b64Char (a / 4) :: b64Char (a % 4 * 16 + b / 16) ::
      b64Char (b % 16 * 4 + c / 64) :: b64Char (c % 64) :: base64Encode rest

/-- The 6-bit value of a base64 digit (`none` for padding and anything
outside the alphabet, which Node's forgiving decoder skips). -/
def b64Val : Char → Option Nat
  | c =>
    if 'A' ≤ c ∧ c ≤ 'Z' then some (c.toNat - 65)
    else if 'a' ≤ c ∧ c ≤ 'z' then some (c.toNat - 71)
    else if '0' ≤ c ∧ c ≤ '9' then some (c.toNat + 4)
    else if c = '+' then some 62
    else if c = '/' then some 63
    else none

/-- Reassemble bytes from 6-bit quanta, Node style: a trailing group of
three quanta yields two bytes, of two quanta one byte, a lone quantum is
dropped. -/
def b64Bytes : List Nat → List Nat
  | v1 :: v2 :: v3 :: v4 :: rest =>
    (v1 * 4 + v2 / 16) :: (v2 % 16 * 16 + v3 / 4) :: (v3 % 4 * 64 + v4) :: b64Bytes rest
  | [v1, v2, v3] => [v1 * 4 + v2 / 16, v2 % 16 * 16 + v3 / 4]
  | [v1, v2] => [v1 * 4 + v2 / 16]
  | _ => []

/-- Model of `Buffer.from(s, "base64")`: skip non-alphabet characters
(including `=` padding), then reassemble. -/
def base64Decode (l : List Char) : List Nat :=
  b64Bytes (l.filterMap b64Val)

/-! ## The token URI (encode by the builder, decode by the enumerator) -/

/-- The data-URI marker string. -/
def dataUriPfx : String := "data:application/json;base64,"

/-- nftService lines 118-121: the metadata URI
`data:application/json;base64,<base64 of the JSON>`. -/
def metadataToUri (m : NftMetadata) : String :=
  ⟨dataUriPfx.data ++ base64Encode (utf8Encode (stringifyMetadata m))⟩

/-! ## JSON.parse

A recursive-descent parser over the character list, with a fuel
parameter that strictly decreases on every recursive step; callers supply
`input length + 1`, which always suffices since every step consumes at
least one character. -/

/-- JSON insignificant whitespace. -/
def jsonWs (c : Char) : Bool :=
  c = ' ' || c = '\t' || c = '\n' || c = '\r'

/-- Skip insignificant whitespace. -/
def skipWs (l : List Char) : List Char := l.dropWhile jsonWs

/-- Value of one hex digit, for `\uXXXX` escapes. -/
def hexVal : Char → Option Nat
  | c =>
    if '0' ≤ c ∧ c ≤ '9' then some (c.toNat - 48)
    else if 'a' ≤ c ∧ c ≤ 'f' then some (c.toNat - 87)
    else if 'A' ≤ c ∧ c ≤ 'F' then some (c.toNat - 55)
    else none

/-- Scanner state for a JSON string literal: in the plain body, after a
backslash, or inside a `\uXXXX` escape holding the value and count of hex
digits read so far.  The accumulator keeps the decoded characters in
reverse. -/
inductive StrScan where
  | norm (acc : List Char) : StrScan
  | esc (acc : List Char) : StrScan
  | hex (acc : List Char) (val count : Nat) : StrScan

/-- One-character-at-a-time scanner for a JSON string literal body (after
the opening quote); returns the decoded characters and the input
remaining after the closing quote. -/
def psbGo : StrScan → List Char → Option (List Char × List Char)
  | _, [] => none
  | .norm acc, c :: rest =>
    if c = '"' then some (acc.reverse, rest)
    else if c = '\\' then psbGo (.esc acc) rest
    else if c.toNat < 32 then none
    else psbGo (.norm (c :: acc)) rest
  | .esc acc, e :: rest =>
    if e = '"' then psbGo (.norm ('"' :: acc)) rest
    else if e = '\\' then psbGo (.norm ('\\' :: acc)) rest
    else if e = '/' then psbGo (.norm ('/' :: acc)) rest
    else if e = 'b' then psbGo (.norm ('\x08' :: acc)) rest
    else if e = 'f' then psbGo (.norm ('\x0c' :: acc)) rest
    else if e = 'n' then psbGo (.norm ('\n' :: acc)) rest
    else if e = 'r' then psbGo (.norm ('\r' :: acc)) rest
    else if e = 't' then psbGo (.norm ('\t' :: acc)) rest
    else if e = 'u' then psbGo (.hex acc 0 0) rest
    else none
  | .hex acc val count, h :: rest =>
    match hexVal h with
    | none => none
    | some d =>
      if count = 3 then psbGo (.norm (Char.ofNat (val * 16 + d) :: acc)) rest
      else psbGo (.hex acc (val * 16 + d) (count + 1)) rest

/-- Parse the body of a JSON string literal (after the opening quote). -/
def parseStringBody (l : List Char) : Option (List Char × List Char) :=
  psbGo (.norm []) l

/-- A character that may occur in a JSON number token. -/
def numChar (c : Char) : Bool :=
  c.isDigit || c = '-' || c = '+' || c = '.' || c = 'e' || c = 'E'

mutual

/-- Parse one JSON value; returns the value and the remaining input. -/
def parseValue : Nat → List Char → Option (Json × List Char)
  | 0, _ => none
  | fuel + 1, l =>
    match skipWs l with
    | '\x7b' :: r => parseObjBody fuel r
    | '[' :: r => parseArrBody fuel r
    | '"' :: r => (parseStringBody r).map (fun p => (.str ⟨p.1⟩, p.2))
    | 't' :: 'r' :: 'u' :: 'e' :: r => some (.bool true, r)
    | 'f' :: 'a' :: 'l' :: 's' :: 'e' :: r => some (.bool false, r)
    | 'n' :: 'u' :: 'l' :: 'l' :: r => some (.null, r)
    | c :: r =>
      if c.isDigit || c = '-' then
        some (.num ⟨c :: r.takeWhile numChar⟩, r.dropWhile numChar)
      else none
    | [] => none

/-- Parse an object body (after `{`). -/
def parseObjBody : Nat → List Char → Option (Json × List Char)
  | 0, _ => none
  | fuel + 1, l =>
    match skipWs l with
    | '\x7d' :: r => some (.obj [], r)
    | _ => parseMembers fuel l []

/-- Parse the members of a non-empty object body. -/
def parseMembers : Nat → List Char → List (String × Json) →
    Option (Json × List Char)
  | 0, _, _ => none
  | fuel + 1, l, acc =>
    match skipWs l with
    | '"' :: r =>
      match parseStringBody r with
      | none => none
      | some (key, r1) =>
        match skipWs r1 with
        | ':' :: r2 =>
          match parseValue fuel r2 with
          | none => none
          | some (v, r3) =>
            match skipWs r3 with
            | ',' :: r4 => parseMembers fuel r4 (acc ++ [(⟨key⟩, v)])
            | '\x7d' :: r4 => some (.obj (acc ++ [(⟨key⟩, v)]), r4)
            | _ => none
        | _ => none
    | _ => none

/-- Parse an array body (after `[`). -/
def parseArrBody : Nat → List Char → Option (Json × List Char)
  | 0, _ => none
  | fuel + 1, l =>
    match skipWs l with
    | ']' :: r => some (.arr [], r)
    | _ => parseElems fuel l []

/-- Parse the elements of a non-empty array body. -/
def parseElems : Nat → List Char → List Json → Option (Json × List Char)
  | 0, _, _ => none
  | fuel + 1, l, acc =>
    match parseValue fuel l with
    | none => none
    | some (v, r) =>
      match skipWs r with
      | ',' :: r2 => parseElems fuel r2 (acc ++ [v])
      | ']' :: r2 => some (.arr (acc ++ [v]), r2)
      | _ => none

end

/-- Model of `JSON.parse`: parse one value and require the rest of the
input to be whitespace. -/
def jsonParse (l : List Char) : Option Json :=
  match parseValue (l.length + 1) l with
  | some (j, rest) => if skipWs rest = [] then some j else none
  | none => none

/-- The enumerator's metadata decode (nftService lines 310-316): strip
the data-URI marker (its `replace` with the leading marker equals
dropping the marker's length), base64-decode, read as UTF-8 and
`JSON.parse`; `none` models a thrown decode error. -/
def decodeTokenUriJson (uri : String) : Option Json :=
  match utf8Decode (base64Decode (uri.data.drop (jsLength dataUriPfx))) with
  | none => none
  | some chars => jsonParse chars

/-! ## The private-key formatter

Shared snippet of nftService lines 154-167 and the `/api/test/private-key`
route: trim, enforce length 64 or 66, strip a leading `0x`. -/

/-- Trim, check length 64/66, strip an optional `0x`. -/
def formatPrivateKey (privateKey : String) : Except String String :=
  let s := jsTrim privateKey
  if jsLength s ≠ 64 ∧ jsLength s ≠ 66 then
    .error ("Invalid private key length: " ++ toString (jsLength s) ++
      ". Expected 64 or 66 characters.")
  else
    .ok (if jsStartsWith s "0x" then jsSubstringFrom s 2 else s)

/-! ## The mint orchestrator `mintTextNFT` -/

/-- One emitted log entry of a transaction receipt. -/
structure LogEntry where
  topics : List String
deriving DecidableEq

/-- A transaction receipt. -/
structure Receipt where
  logs : List LogEntry
deriving DecidableEq

/-- Result of `sendTransaction`.  `receipt = none` models a result object
without a receipt, on which reading `.logs` throws. -/
structure TxResult where
  transactionHash : String
  receipt : Option Receipt
deriving DecidableEq

/-- The external collaborators the orchestrator invokes, in order. -/
inductive ExtCall where
  | getContract
  | privateKeyToAccount
  | prepareContractCall
  | sendTransaction
deriving DecidableEq

/-- Environment abstracting the thirdweb SDK: each collaborator either
throws (`error`) or returns. -/
structure MintEnv where
  contractAddress : String
  getContract : Except String Unit
  privateKeyToAccount : String → Except String String
  prepareContractCall : String → String → Except String Unit
  sendTransaction : Except String TxResult

/-- The two terminal outcomes of a mint invocation. -/
inductive MintResult where
  | prepared (message : String) (contract : String) (tokenMetadata : NftMetadata)
      (instructions : List String) : MintResult
  | minted (tokenId : Option String) (transactionHash : String) (toAddr : String)
      (metadata : NftMetadata) : MintResult
deriving DecidableEq

/-- The static instruction strings of the prepare path. -/
def prepareInstructions (contractAddress : String) : List String :=
  [ "1. Connect your wallet to Thirdweb dashboard"
  , "2. Access your contract at " ++ contractAddress
  , "3. Use the mintTo function with your wallet address and the metadata"
  , "4. Or integrate a client-side wallet connector like Metamask" ]

/-- nftService lines 200-210: recover the token id from the receipt.
`some "unknown"` is the sentinel; `none` models the JS `undefined`
produced when the first log entry has fewer than four topics (reading
`topics[3]` out of range yields `undefined`, it does not throw).  An
absent receipt makes `result.receipt.logs` throw, which the inner catch
turns back into the sentinel. -/
def extractTokenId (receipt : Option Receipt) : Option String :=
  match receipt with
  | none => some "unknown"
  | some r =>
    match r.logs with
    | [] => some "unknown"
    | e :: _ => e.topics.get? 3

/-- Body of the `try` block of `mintTextNFT` (nftService lines 94-223),
with the call log of the external collaborators. -/
def mintTextNFTCore (env : MintEnv) (text : String) (performMint : Bool)
    (privateKey toAddress description : Option String) (now : String) :
    Except String MintResult × List ExtCall :=
  match env.getContract with
  | .error e => (.error e, [.getContract])
  | .ok () =>
    let metadata := buildMetadata text description now
    let metadataUri := metadataToUri metadata
    if !performMint then
      (.ok (.prepared
        "To mint an NFT, you need to call this contract directly with the owner's wallet"
        env.contractAddress metadata (prepareInstructions env.contractAddress)),
       [.getContract])
    else if jsMissingOrBlank privateKey then
      (.error "Private key is required for minting but not provided", [.getContract])
    else if jsMissingOrBlank toAddress then
      (.error "Wallet address (toAddress) is required for minting but not provided",
       [.getContract])
    else
      match formatPrivateKey (privateKey.getD "") with
      | .error e => (.error e, [.getContract])
      | .ok formattedPrivateKey =>
        match env.privateKeyToAccount formattedPrivateKey with
        | .error e => (.error e, [.getContract, .privateKeyToAccount])
        | .ok _account =>
          let recipientAddress := toAddress.getD ""
          match env.prepareContractCall recipientAddress metadataUri with
          | .error e => (.error e, [.getContract, .privateKeyToAccount, .prepareContractCall])
          | .ok () =>
            match env.sendTransaction with
            | .error e =>
              (.error e,
               [.getContract, .privateKeyToAccount, .prepareContractCall, .sendTransaction])
            | .ok result =>
              (.ok (.minted (extractTokenId result.receipt) result.transactionHash
                 recipientAddress metadata),
               [.getContract, .privateKeyToAccount, .prepareContractCall, .sendTransaction])

/-- `mintTextNFT` with its outer catch: any thrown error is rewrapped as
`Failed to mint NFT: <message>`. -/
def mintTextNFT (env : MintEnv) (text : String) (performMint : Bool)
    (privateKey toAddress description : Option String) (now : String) :
    Except String MintResult × List ExtCall :=
  match mintTextNFTCore env text performMint privateKey toAddress description now with
  | (.error m, log) => (.error ("Failed to mint NFT: " ++ m), log)
  | ok => ok

/-- nftService lines 239-262: validate, delegate to `mintTextNFT` with
`performMint = true`, and rewrap any thrown error once more. -/
def mintTextNFTWithPrivateKey (env : MintEnv) (text : String)
    (privateKey toAddress description : Option String) (now : String) :
    Except String MintResult × List ExtCall :=
  if jsMissingOrBlank privateKey then
    (.error ("Failed to mint NFT: " ++ "Private key is required for minting"), [])
  else if jsMissingOrBlank toAddress then
    (.error ("Failed to mint NFT: " ++ "Wallet address (toAddress) is required for minting"),
     [])
  else
    match mintTextNFT env text true privateKey toAddress description now with
    | (.error m, log) => (.error ("Failed to mint NFT: " ++ m), log)
    | ok => ok

/-! ## The wallet NFT enumerator -/

/-- One entry of the enumerator's result. -/
structure WalletNft where
  tokenId : String
  name : Json
  description : Json
  attributes : Json

/-- Environment of one enumeration: the contract reads the enumerator
performs, each able to throw. -/
structure EnumEnv where
  getContract : Except String Unit
  balanceOf : Except String Nat
  tokenOfOwnerByIndex : Nat → Except String Nat
  tokenURI : Nat → Except String String

/-- The fallback metadata for a token URI that is not a base64 data URI. -/
def fallbackMetadata (tokenId : Nat) : Json :=
  .obj [("name", .str ("Token #" ++ toString tokenId)),
        ("description", .str "No metadata available")]

/-- Body of the per-index `try` block (nftService lines 293-329): resolve
the token id, its URI, decode metadata, and build the result entry. -/
def resolveToken (env : EnumEnv) (i : Nat) : Except String WalletNft :=
  match env.tokenOfOwnerByIndex i with
  | .error e => .error e
  | .ok tokenId =>
    match env.tokenURI tokenId with
    | .error e => .error e
    | .ok tokenUri =>
      match
        (if jsStartsWith tokenUri dataUriPfx then
          match decodeTokenUriJson tokenUri with
          | none => .error "Unexpected token in JSON"
          | some j => .ok j
        else .ok (fallbackMetadata tokenId) : Except String Json) with
      | .error e => .error e
      | .ok metadata =>
        .ok { tokenId := toString tokenId
            , name := jsonOr (objGet metadata "name")
                (.str ("Token #" ++ toString tokenId))
            , description := jsonOr (objGet metadata "description") (.str "")
            , attributes := jsonOr (objGet metadata "attributes") (.arr []) }

/-- nftService lines 270-340: read the balance, then loop indices
`0 ≤ i < balance`, appending each successfully resolved token and
skipping (only logging) any index whose resolution throws. -/
def getWalletNFTs (env : EnumEnv) : Except String (List WalletNft) :=
  match env.getContract with
  | .error e => .error ("Failed to fetch NFTs: " ++ e)
  | .ok () =>
    match env.balanceOf with
    | .error e => .error ("Failed to fetch NFTs: " ++ e)
    | .ok balanceNum =>
      .ok ((List.range balanceNum).filterMap fun i => (resolveToken env i).toOption)

/-! ## Contract info -/

structure ContractInfo where
  name : String
  symbol : String
  owner : String
  totalSupply : String
  address : String

/-- Environment of `getContractInfo`. -/
structure InfoEnv where
  getContract : Except String Unit
  nameCall : Except String String
  symbolCall : Except String String
  ownerCall : Except String String
  totalSupplyCall : Except String Nat

/-- nftService lines 21-74: read name, symbol, owner (degrading to
`"unknown"`), and total supply (stringified). -/
def getContractInfo (env : InfoEnv) (address : String) : Except String ContractInfo :=
  match
    (match env.getContract with
     | .error e => .error e
     | .ok () =>
       match env.nameCall with
       | .error e => .error e
       | .ok name =>
         match env.symbolCall with
         | .error e => .error e
         | .ok symbol =>
           let owner := match env.ownerCall with
             | .error _ => "unknown"
             | .ok o => o
           match env.totalSupplyCall with
           | .error e => .error e
           | .ok totalSupply =>
             .ok { name, symbol, owner, totalSupply := toString totalSupply, address }
      : Except String ContractInfo) with
  | .error e => .error ("Failed to get contract info: " ++ e)
  | ok => ok

/-! ## HTTP surface (secured server variant)

Responses carry a status code and a JSON object body, the body as an
ordered field list.  `res.json` drops `undefined` fields, which is why an
undefined token id simply does not appear in the body. -/

structure Response where
  status : Nat
  body : List (String × Json)

/-- Is `c` a hex digit, as the character class `[a-fA-F0-9]`. -/
def hexDigitClass (c : Char) : Bool :=
  c.isDigit || ('a' ≤ c && c ≤ 'f') || ('A' ≤ c && c ≤ 'F')

/-- The wallet-address test `^0x[a-fA-F0-9]{40}$`. -/
def ethAddressTest (s : String) : Bool :=
  jsLength s = 42 && jsStartsWith s "0x" && (s.data.drop 2).all hexDigitClass

/-- The masked wallet of the POST `/api/nfts` response:
`substring(0,6) + "..." + substring(length-4)`. -/
def maskWallet (w : String) : String :=
  jsSubstring w 0 6 ++ "..." ++ jsSubstringFrom w (jsLength w - 4)

/-- JSON rendering of a `ContractInfo`. -/
def contractInfoJson (c : ContractInfo) : Json :=
  .obj [("name", .str c.name), ("symbol", .str c.symbol), ("owner", .str c.owner),
    ("totalSupply", .str c.totalSupply), ("address", .str c.address)]

/-- JSON rendering of an `NftAttribute`. -/
def attributeJson (a : NftAttribute) : Json :=
  .obj [("trait_type", .str a.trait_type), ("value", .str a.value)]

/-- JSON rendering of an `NftMetadata`. -/
def nftMetadataJson (m : NftMetadata) : Json :=
  .obj [("name", .str m.name), ("description", .str m.description),
    ("attributes", .arr (m.attributes.map attributeJson))]

/-- JSON rendering of a `WalletNft`. -/
def walletNftJson (n : WalletNft) : Json :=
  .obj [("tokenId", .str n.tokenId), ("name", n.name),
    ("description", n.description), ("attributes", n.attributes)]

/-- GET `/health` (secured variant, lines 64-71): no `success` field. -/
def healthHandler (now : String) : Response :=
  ⟨200, [("status", .str "healthy"),
         ("message", .str "API is functioning correctly"),
         ("timestamp", .str now)]⟩

/-- GET `/api/contract`. -/
def contractHandler (env : InfoEnv) (address : String) : Response :=
  match getContractInfo env address with
  | .ok info => ⟨200, [("success", .bool true), ("contract", contractInfoJson info)]⟩
  | .error m => ⟨500, [("success", .bool false),
      ("error", .str "Failed to fetch contract info"), ("details", .str m)]⟩

/-- POST `/api/mint/text/prepare`. -/
def prepareHandler (env : MintEnv) (now : String) (text : Option String) : Response :=
  if jsFalsyOpt text then
    ⟨400, [("success", .bool false), ("error", .str "Missing required field: text")]⟩
  else
    match mintTextNFT env (text.getD "") false none none none now with
    | (.ok (.prepared message contract metadata instructions), _) =>
      ⟨200, [("success", .bool true), ("status", .str "prepared"),
        ("message", .str message), ("contract", .str contract),
        ("metadata", nftMetadataJson metadata),
        ("instructions", .arr (instructions.map .str))]⟩
    | (.ok _, _) =>
      ⟨200, [("success", .bool true), ("status", .str "prepared")]⟩
    | (.error m, _) =>
      ⟨500, [("success", .bool false), ("error", .str "Failed to prepare NFT"),
        ("details", .str m)]⟩

/-- The minted-response body; an undefined token id is dropped by
`res.json`. -/
def mintedBody (tokenId : Option String) (transactionHash toAddr : String)
    (metadata : NftMetadata) : List (String × Json) :=
  [("success", .bool true), ("status", .str "minted")] ++
  (match tokenId with
   | some t => [("tokenId", .str t)]
   | none => []) ++
  [("transactionHash", .str transactionHash), ("to", .str toAddr),
   ("metadata", nftMetadataJson metadata)]

/-- POST `/api/mint/text` (identical validation in both server variants):
presence of `text`, non-blank `privateKey` and `toAddress`, then the
delegated mint.  The second component is the external-collaborator call
log (empty when the handler rejects before delegating). -/
def mintTextHandler (env : MintEnv) (now : String)
    (text privateKey toAddress : Option String) : Response × List ExtCall :=
  if jsFalsyOpt text then
    (⟨400, [("success", .bool false), ("error", .str "Missing required field: text")]⟩, [])
  else if jsMissingOrBlank privateKey then
    (⟨400, [("success", .bool false),
      ("error", .str "Missing required field: privateKey")]⟩, [])
  else if jsMissingOrBlank toAddress then
    (⟨400, [("success", .bool false),
      ("error", .str "Missing required field: toAddress (wallet address)")]⟩, [])
  else
    match mintTextNFT env (text.getD "") true privateKey toAddress none now with
    | (.ok (.minted tokenId transactionHash toAddr metadata), log) =>
      (⟨200, mintedBody tokenId transactionHash toAddr metadata⟩, log)
    | (.ok _, log) =>
      (⟨500, [("success", .bool false), ("error", .str "Failed to mint NFT"),
        ("details", .str "Unexpected response from minting function")]⟩, log)
    | (.error m, log) =>
      (⟨500, [("success", .bool false), ("error", .str "Failed to mint NFT"),
        ("details", .str m)]⟩, log)

/-- POST `/api/nfts`. -/
def nftsPostHandler (env : EnumEnv) (walletAddress : Option String) : Response :=
  if jsFalsyOpt walletAddress then
    ⟨400, [("success", .bool false),
      ("error", .str "Missing required field: walletAddress")]⟩
  else
    let w := walletAddress.getD ""
    if !ethAddressTest w then
      ⟨400, [("success", .bool false), ("error", .str "Invalid wallet address format")]⟩
    else
      match getWalletNFTs env with
      | .ok nfts =>
        ⟨200, [("success", .bool true), ("wallet", .str (maskWallet w)),
          ("count", .num (toString nfts.length)),
          ("nfts", .arr (nfts.map walletNftJson))]⟩
      | .error m =>
        ⟨500, [("success", .bool false), ("error", .str "Failed to fetch NFTs"),
          ("details", .str m)]⟩

/-- GET `/api/nfts/:walletAddress` (deprecated variant). -/
def nftsGetHandler (env : EnumEnv) (walletAddress : String) : Response :=
  if walletAddress = "" then
    ⟨400, [("success", .bool false),
      ("error", .str "Missing required parameter: walletAddress")]⟩
  else if !ethAddressTest walletAddress then
    ⟨400, [("success", .bool false), ("error", .str "Invalid wallet address format")]⟩
  else
    match getWalletNFTs env with
    | .ok nfts =>
      ⟨200, [("success", .bool true), ("deprecated", .bool true),
        ("message", .str "This endpoint is deprecated. Please use POST /api/nfts instead."),
        ("wallet", .str (maskWallet walletAddress)),
        ("count", .num (toString nfts.length)),
        ("nfts", .arr (nfts.map walletNftJson))]⟩
    | .error m =>
      ⟨500, [("success", .bool false), ("error", .str "Failed to fetch NFTs"),
        ("details", .str m)]⟩

/-- POST `/api/test/private-key` (secured variant, lines 279-329):
presence check, then the key formatter, then the dry-run account
derivation.  The call log records whether `privateKeyToAccount` ran. -/
def testKeyHandler (privateKeyToAccount : String → Except String String)
    (privateKey : Option String) : Response × List ExtCall :=
  if jsFalsyOpt privateKey then
    (⟨400, [("success", .bool false),
      ("error", .str "Missing required field: privateKey")]⟩, [])
  else
    match formatPrivateKey (privateKey.getD "") with
    | .error m => (⟨400, [("success", .bool false), ("error", .str m)]⟩, [])
    | .ok formattedPrivateKey =>
      match privateKeyToAccount formattedPrivateKey with
      | .ok address =>
        (⟨200, [("success", .bool true),
          ("message", .str "Private key format is valid"),
          ("address", .str address)]⟩, [.privateKeyToAccount])
      | .error e =>
        (⟨400, [("success", .bool false), ("error", .str "Invalid private key format"),
          ("details", .str e)]⟩, [.privateKeyToAccount])

/-! ## API-key middleware and dispatch -/

/-- Outcome of the API-key middleware. -/
inductive AuthOutcome where
  | unauthorized
  | forbidden
  | proceed
deriving DecidableEq

/-- server lines 28-52: `!apiKey` → 401; `apiKey !== secret` → 403; else
`next()`.  The header is `none` when absent; an empty header value is
falsy and also lands in the 401 branch. -/
def validateApiKey (apiKey secret : Option String) : AuthOutcome :=
  if jsFalsyOpt apiKey then .unauthorized
  else if apiKey ≠ secret then .forbidden
  else .proceed

/-- The routes of the secured server, with their request inputs. -/
inductive Route where
  | health
  | contract
  | mintPrepare (text : Option String)
  | mintText (text privateKey toAddress : Option String)
  | nftsPost (walletAddress : Option String)
  | nftsGet (walletAddress : String)
  | testPrivateKey (privateKey : Option String)

/-- Per-request environment: wall clock plus every external collaborator. -/
structure ServerEnv where
  now : String
  contractAddress : String
  info : InfoEnv
  mint : MintEnv
  enum : EnumEnv
  pkToAccount : String → Except String String

/-- Route dispatch (after the middleware chain). -/
def routeDispatch (env : ServerEnv) : Route → Response
  | .health => healthHandler env.now
  | .contract => contractHandler env.info env.contractAddress
  | .mintPrepare text => prepareHandler env.mint env.now text
  | .mintText text privateKey toAddress =>
    (mintTextHandler env.mint env.now text privateKey toAddress).1
  | .nftsPost walletAddress => nftsPostHandler env.enum walletAddress
  | .nftsGet walletAddress => nftsGetHandler env.enum walletAddress
  | .testPrivateKey privateKey => (testKeyHandler env.pkToAccount privateKey).1

/-- The 401 body of the middleware. -/
def authMissingBody : List (String × Json) :=
  [("success", .bool false), ("error", .str "API key is required"),
   ("message", .str "Please provide an API key in the 'x-api-key' header")]

/-- The 403 body of the middleware. -/
def authInvalidBody : List (String × Json) :=
  [("success", .bool false), ("error", .str "Invalid API key"),
   ("message", .str "The provided API key is not valid")]

/-- The secured server: API-key middleware first, then routing. -/
def serveSecured (secret : Option String) (env : ServerEnv) (r : Route)
    (apiKey : Option String) : Response :=
  match validateApiKey apiKey secret with
  | .unauthorized => ⟨401, authMissingBody⟩
  | .forbidden => ⟨403, authInvalidBody⟩
  | .proceed => routeDispatch env r

/-! ## Concrete sample data for witnesses and counterexamples -/

/-- A well-formed 64-character key (64 times `a`). -/
def pk64 : String := ⟨List.replicate 64 'a'⟩

/-- A well-formed 66-character key: `0x` then 64 times `a`. -/
def pk66 : String := ⟨'0' :: 'x' :: List.replicate 64 'a'⟩

/-- A mint environment where every collaborator succeeds and the receipt
carries a first log entry with four topics. -/
def mintEnvOk : MintEnv :=
  { contractAddress := "0xc0ffee"
  , getContract := .ok ()
  , privateKeyToAccount := fun _ => .ok "0xacct"
  , prepareContractCall := fun _ _ => .ok ()
  , sendTransaction := .ok
      { transactionHash := "0xhash"
      , receipt := some { logs := [{ topics := ["t0", "t1", "t2", "0x07"] }] } } }

/-- Like `mintEnvOk`, but the first log entry has only three topics, so
`topics[3]` is `undefined`. -/
def mintEnvShortTopics : MintEnv :=
  { mintEnvOk with
    sendTransaction := .ok
      { transactionHash := "0xhash"
      , receipt := some { logs := [{ topics := ["t0", "t1", "t2"] }] } } }

/-- An enumeration environment holding three tokens, where resolving
index 1 throws. -/
def enumEnvDemo : EnumEnv :=
  { getContract := .ok ()
  , balanceOf := .ok 3
  , tokenOfOwnerByIndex := fun i =>
      if i = 1 then .error "execution reverted" else .ok (100 + i)
  , tokenURI := fun t => .ok ("https://example.invalid/" ++ toString t) }

/-- A contract-info environment where every read succeeds. -/
def infoEnvDemo : InfoEnv :=
  { getContract := .ok (), nameCall := .ok "Cruxz", symbolCall := .ok "CRX"
  , ownerCall := .ok "0xowner", totalSupplyCall := .ok 7 }

/-- A complete per-request server environment. -/
def serverEnvDemo : ServerEnv :=
  { now := "2024-01-01T00:00:00.000Z"
  , contractAddress := "0xc0ffee"
  , info := infoEnvDemo
  , mint := mintEnvOk
  , enum := enumEnvDemo
  , pkToAccount := fun _ => .ok "0xacct" }

/-! ## Theorems -/

/-- Claim C3: for every valid 66-character key starting with `0x` (after
trim), the formatter returns exactly the 64-character suffix obtained by
removing the first two characters; for every valid 64-character key
(after trim), the formatter returns the input unchanged. -/
theorem formatPrivateKey_spec (s : String) :
    (jsTrim s = s → jsLength s = 66 → jsStartsWith s "0x" = true →
      formatPrivateKey s = .ok (jsSubstringFrom s 2) ∧
      jsLength (jsSubstringFrom s 2) = 64) ∧
    (jsTrim s = s → jsLength s = 64 → s.data.all hexDigitClass = true →
      formatPrivateKey s = .ok s) := by
  constructor
  · intro htrim hlen hpfx
    constructor
    · simp [formatPrivateKey, htrim, hlen, hpfx]
    · simp only [jsLength, jsSubstringFrom, List.length_drop]
      simp only [jsLength] at hlen
      omega
  · intro htrim hlen hhex
    have hpfx : jsStartsWith s "0x" = false := by
      by_contra h
      have hp : "0x".data.isPrefixOf s.data = true := by
        simpa [jsStartsWith] using h
      obtain ⟨t, ht⟩ := List.isPrefixOf_iff_prefix.mp hp
      have hx : hexDigitClass 'x' = false := by decide
      rw [← ht, List.all_append] at hhex
      simp [List.all_cons, hx] at hhex
    simp [formatPrivateKey, htrim, hlen, hpfx]

/-- Witness for C3 at concrete 66- and 64-character keys. -/
theorem formatPrivateKey_spec_witness :
    (formatPrivateKey pk66 = .ok (jsSubstringFrom pk66 2) ∧
      jsLength (jsSubstringFrom pk66 2) = 64) ∧
    formatPrivateKey pk64 = .ok pk64 :=
  ⟨(formatPrivateKey_spec pk66).1 (by decide) (by decide) (by decide),
   (formatPrivateKey_spec pk64).2 (by decide) (by decide) (by decide)⟩

/-- Claim C4 (amended): the built metadata has name `"CRUXZ NFT"`,
description equal to the provided description when a non-empty one is
given and `"CRUXZ NFT"` when it is absent or empty, and exactly the two
attributes `Text = text` then `Created At = now` in that order. -/
theorem buildMetadata_spec (text : String) (description : Option String) (now : String) :
    (buildMetadata text description now).name = "CRUXZ NFT" ∧
    (∀ d, description = some d → d ≠ "" →
      (buildMetadata text description now).description = d) ∧
    (description = none ∨ description = some "" →
      (buildMetadata text description now).description = "CRUXZ NFT") ∧
    (buildMetadata text description now).attributes =
      [⟨"Text", text⟩, ⟨"Created At", now⟩] := by
  refine ⟨rfl, ?_, ?_, rfl⟩
  · rintro d rfl hd
    simp [buildMetadata, jsOrDefault, hd]
  · rintro (rfl | rfl) <;> simp [buildMetadata, jsOrDefault]

/-- Witness for C4 at a concrete non-empty description. -/
theorem buildMetadata_spec_witness :
    (buildMetadata "hello" (some "mine") "2024-01-01T00:00:00.000Z").name = "CRUXZ NFT" ∧
    (buildMetadata "hello" (some "mine") "2024-01-01T00:00:00.000Z").description = "mine" ∧
    (buildMetadata "hello" (some "mine") "2024-01-01T00:00:00.000Z").attributes =
      [⟨"Text", "hello"⟩, ⟨"Created At", "2024-01-01T00:00:00.000Z"⟩] :=
  have h := buildMetadata_spec "hello" (some "mine") "2024-01-01T00:00:00.000Z"
  ⟨h.1, h.2.1 "mine" rfl (by decide), h.2.2.2⟩

/-- Counterexample to C4 as stated: an empty string is a provided
description, yet the builder replaces it by `"CRUXZ NFT"`. -/
theorem buildMetadata_empty_description_counterexample :
    (buildMetadata "hello" (some "") "t").description = "CRUXZ NFT" ∧
    (buildMetadata "hello" (some "") "t").description ≠ "" := by
  constructor
  · rfl
  · decide

/-- Claim C2 (amended): for every private-key string whose trimmed
length is neither 64 nor 66 the request is rejected and no account
derivation or transaction is attempted (the call logs contain neither
`privateKeyToAccount` nor `sendTransaction`).  The message echoes the
actual trimmed length whenever the key reaches the formatter: on the
key-test route for every present non-empty key (a whitespace-only key is
echoed as length 0), and on the mint path for every key that is
non-blank after trim.  A key that is absent or empty, or on the mint
path blank after trim, is instead rejected earlier with a missing-field
message that does not echo the length. -/
theorem invalid_key_length_rejected (env : MintEnv) (text : String) (pk : String)
    (toAddress description : Option String) (now : String)
    (f : String → Except String String)
    (henv : env.getContract = .ok ())
    (hlen : jsLength (jsTrim pk) ≠ 64 ∧ jsLength (jsTrim pk) ≠ 66)
    (hto : jsMissingOrBlank toAddress = false) :
    (jsTrim pk ≠ "" →
      mintTextNFT env text true (some pk) toAddress description now =
        (.error ("Failed to mint NFT: " ++ ("Invalid private key length: " ++
          toString (jsLength (jsTrim pk)) ++ ". Expected 64 or 66 characters.")),
         [.getContract])) ∧
    (jsTrim pk = "" →
      mintTextNFT env text true (some pk) toAddress description now =
        (.error "Failed to mint NFT: Private key is required for minting but not provided",
         [.getContract])) ∧
    (pk ≠ "" →
      testKeyHandler f (some pk) =
        (⟨400, [("success", .bool false),
          ("error", .str ("Invalid private key length: " ++
            toString (jsLength (jsTrim pk)) ++ ". Expected 64 or 66 characters."))]⟩,
         [])) ∧
    testKeyHandler f none =
      (⟨400, [("success", .bool false),
        ("error", .str "Missing required field: privateKey")]⟩, []) ∧
    testKeyHandler f (some "") =
      (⟨400, [("success", .bool false),
        ("error", .str "Missing required field: privateKey")]⟩, []) := by
  simp only [jsMissingOrBlank] at hto
  refine ⟨?_, ?_, ?_, rfl, rfl⟩
  · intro hpk
    simp [mintTextNFT, mintTextNFTCore, henv, jsMissingOrBlank, hpk, hto,
      formatPrivateKey, hlen]
  · intro hb
    simp [mintTextNFT, mintTextNFTCore, henv, jsMissingOrBlank, hb]
  · intro hpk0
    simp [testKeyHandler, jsFalsyOpt, hpk0, formatPrivateKey, hlen]

/-- Witness for C2 at a 10-character key and at a whitespace-only key:
the former is echoed as length 10 on both paths, the latter reaches the
key-test route's formatter and is echoed as length 0, while the mint
path rejects it earlier as missing. -/
theorem invalid_key_length_rejected_witness :
    mintTextNFT mintEnvOk "txt" true (some "abcdefghij") (some "0xto") none "now" =
      (.error "Failed to mint NFT: Invalid private key length: 10. Expected 64 or 66 characters.",
       [.getContract]) ∧
    testKeyHandler (fun _ => .ok "0xacct") (some "abcdefghij") =
      (⟨400, [("success", .bool false),
        ("error", .str "Invalid private key length: 10. Expected 64 or 66 characters.")]⟩,
       []) ∧
    testKeyHandler (fun _ => .ok "0xacct") (some " ") =
      (⟨400, [("success", .bool false),
        ("error", .str "Invalid private key length: 0. Expected 64 or 66 characters.")]⟩,
       []) ∧
    mintTextNFT mintEnvOk "txt" true (some " ") (some "0xto") none "now" =
      (.error "Failed to mint NFT: Private key is required for minting but not provided",
       [.getContract]) := by
  have h1 := invalid_key_length_rejected mintEnvOk "txt" "abcdefghij" (some "0xto")
    none "now" (fun _ => .ok "0xacct") rfl (by decide) (by decide)
  have h2 := invalid_key_length_rejected mintEnvOk "txt" " " (some "0xto")
    none "now" (fun _ => .ok "0xacct") rfl (by decide) (by decide)
  exact ⟨h1.1 (by decide), h1.2.2.1 (by decide), h2.2.2.1 (by decide),
    h2.2.1 (by decide)⟩

/-- Counterexample to C2 as stated: a blank key has trimmed length 0,
which is neither 64 nor 66, yet the rejection message is the
missing-field one and does not echo the length. -/
theorem blank_key_rejection_does_not_echo_length :
    (mintTextNFT mintEnvOk "txt" true (some " ") (some "0xto") none "now").1 =
      .error "Failed to mint NFT: Private key is required for minting but not provided" ∧
    jsLength (jsTrim " ") = 0 ∧
    "Failed to mint NFT: Private key is required for minting but not provided" ≠
      "Failed to mint NFT: Invalid private key length: 0. Expected 64 or 66 characters." := by
  refine ⟨rfl, rfl, ?_⟩
  decide

/-- Claim C6 (amended): on a successful mint the returned token id comes
from `topics[3]` of the first log entry of the receipt; with no logs, or
when reading the receipt throws, it degrades to the sentinel `"unknown"`;
but a first log entry with fewer than four topics yields an undefined
token id (dropped from the JSON response), not `"unknown"`. -/
theorem mint_token_id_extraction (env : MintEnv) (text : String)
    (pk toAddr desc : Option String) (now : String) (fk acct : String) (res : TxResult)
    (hg : env.getContract = .ok ())
    (hpk : jsMissingOrBlank pk = false) (hto : jsMissingOrBlank toAddr = false)
    (hfmt : formatPrivateKey (pk.getD "") = .ok fk)
    (hacct : env.privateKeyToAccount fk = .ok acct)
    (hprep : env.prepareContractCall (toAddr.getD "")
      (metadataToUri (buildMetadata text desc now)) = .ok ())
    (hsend : env.sendTransaction = .ok res) :
    mintTextNFT env text true pk toAddr desc now =
      (.ok (.minted (extractTokenId res.receipt) res.transactionHash (toAddr.getD "")
        (buildMetadata text desc now)),
       [.getContract, .privateKeyToAccount, .prepareContractCall, .sendTransaction]) ∧
    (∀ r e rest, res.receipt = some r → r.logs = e :: rest →
      extractTokenId res.receipt = e.topics.get? 3) ∧
    (res.receipt = none → extractTokenId res.receipt = some "unknown") ∧
    (∀ r, res.receipt = some r → r.logs = [] →
      extractTokenId res.receipt = some "unknown") := by
  refine ⟨?_, ?_, ?_, ?_⟩
  · simp [mintTextNFT, mintTextNFTCore, hg, hpk, hto, hfmt, hacct, hprep, hsend]
  · rintro r e rest hr hl
    simp [extractTokenId, hr, hl]
  · intro hr
    simp [extractTokenId, hr]
  · rintro r hr hl
    simp [extractTokenId, hr, hl]

/-- Witness for C6: a receipt whose first log entry has four topics
yields that fourth topic as the token id. -/
theorem mint_token_id_extraction_witness :
    mintTextNFT mintEnvOk "t" true (some pk64) (some "0xto") none "now" =
      (.ok (.minted (some "0x07") "0xhash" "0xto" (buildMetadata "t" none "now")),
       [.getContract, .privateKeyToAccount, .prepareContractCall, .sendTransaction]) := by
  have h := mint_token_id_extraction mintEnvOk "t" (some pk64) (some "0xto") none "now"
    pk64 "0xacct"
    { transactionHash := "0xhash"
    , receipt := some { logs := [{ topics := ["t0", "t1", "t2", "0x07"] }] } }
    rfl (by decide) (by decide) rfl rfl rfl rfl
  exact h.1

/-- Counterexample to C6 as stated: with a first log entry of only three
topics the extraction "fails" (reads past the end), yet the token id is
the JS `undefined` (absent), not the sentinel `"unknown"`. -/
theorem short_topics_token_id_not_unknown :
    (mintTextNFT mintEnvShortTopics "t" true (some pk64) (some "0xto") none "now").1 =
      .ok (.minted none "0xhash" "0xto" (buildMetadata "t" none "now")) ∧
    (none : Option String) ≠ some "unknown" := by
  refine ⟨rfl, by decide⟩

/-- Claim C7 (amended): at the HTTP route, a mint request with missing or
blank `privateKey` or `toAddress` is answered 400 with a field-specific
message and an empty external-call log; inside `mintTextNFT` itself,
however, the contract handle is resolved before that validation, so a
direct mint-path invocation logs `getContract` (and nothing else) before
the validation error. -/
theorem mint_validation_before_external_calls (env : MintEnv) (now : String)
    (text pk toAddr desc : Option String) :
    (jsFalsyOpt text = false → jsMissingOrBlank pk = true →
      mintTextHandler env now text pk toAddr =
        (⟨400, [("success", .bool false),
          ("error", .str "Missing required field: privateKey")]⟩, [])) ∧
    (jsFalsyOpt text = false → jsMissingOrBlank pk = false →
      jsMissingOrBlank toAddr = true →
      mintTextHandler env now text pk toAddr =
        (⟨400, [("success", .bool false),
          ("error", .str "Missing required field: toAddress (wallet address)")]⟩, [])) ∧
    (env.getContract = .ok () → jsMissingOrBlank pk = true →
      mintTextNFT env (text.getD "") true pk toAddr desc now =
        (.error "Failed to mint NFT: Private key is required for minting but not provided",
         [.getContract])) := by
  refine ⟨?_, ?_, ?_⟩
  · intro htext hpk
    simp [mintTextHandler, htext, hpk]
  · intro htext hpk hto
    simp [mintTextHandler, htext, hpk, hto]
  · intro hg hpk
    simp [mintTextNFT, mintTextNFTCore, hg, hpk]

/-- Witness for C7: a blank private key is rejected by the route with an
empty call log. -/
theorem mint_validation_before_external_calls_witness :
    mintTextHandler mintEnvOk "now" (some "t") (some " ") (some "0xto") =
      (⟨400, [("success", .bool false),
        ("error", .str "Missing required field: privateKey")]⟩, []) :=
  (mint_validation_before_external_calls mintEnvOk "now" (some "t") (some " ")
    (some "0xto") none).1 (by decide) (by decide)

/-- Counterexample to C7 as stated: a direct mint-path invocation with a
missing private key still resolves the contract before the validation
rejection, so the external-collaborator call count is not zero. -/
theorem mint_path_contract_resolved_before_validation :
    (mintTextNFT mintEnvOk "t" true none (some "0xto") none "now").1 =
      .error "Failed to mint NFT: Private key is required for minting but not provided" ∧
    (mintTextNFT mintEnvOk "t" true none (some "0xto") none "now").2 =
      [.getContract] ∧
    ([ExtCall.getContract] : List ExtCall) ≠ [] := by
  refine ⟨rfl, rfl, by decide⟩

/-- Claim C8 (amended): an absent or empty `x-api-key` header yields 401
with the middleware body (no route handler runs: the response is the
fixed 401 body for every route and environment); a present non-empty
header different from the secret yields 403 likewise; an exact match
proceeds to routing. -/
theorem validateApiKey_gate (secret key : Option String) (env : ServerEnv) (r : Route) :
    (key = none ∨ key = some "" →
      serveSecured secret env r key = ⟨401, authMissingBody⟩) ∧
    (∀ s, key = some s → s ≠ "" → key ≠ secret →
      serveSecured secret env r key = ⟨403, authInvalidBody⟩) ∧
    (∀ s, key = some s → s ≠ "" → key = secret →
      serveSecured secret env r key = routeDispatch env r) := by
  refine ⟨?_, ?_, ?_⟩
  · rintro (rfl | rfl) <;> rfl
  · rintro s rfl hs hne
    simp [serveSecured, validateApiKey, jsFalsyOpt, hs, hne]
  · rintro s rfl hs heq
    simp [serveSecured, validateApiKey, jsFalsyOpt, hs, ← heq]

/-- Witness for C8: absent header 401, wrong header 403, matching header
dispatches. -/
theorem validateApiKey_gate_witness :
    serveSecured (some "sec") serverEnvDemo .health none = ⟨401, authMissingBody⟩ ∧
    serveSecured (some "sec") serverEnvDemo .health (some "nope") =
      ⟨403, authInvalidBody⟩ ∧
    serveSecured (some "sec") serverEnvDemo .health (some "sec") =
      routeDispatch serverEnvDemo .health :=
  ⟨(validateApiKey_gate (some "sec") none serverEnvDemo .health).1 (Or.inl rfl),
   (validateApiKey_gate (some "sec") (some "nope") serverEnvDemo .health).2.1 "nope"
     rfl (by decide) (by decide),
   (validateApiKey_gate (some "sec") (some "sec") serverEnvDemo .health).2.2 "sec"
     rfl (by decide) rfl⟩

/-- Counterexample to C8 as stated: a present-but-empty header value is
falsy, so the middleware answers 401, while the claim demands 403 for any
present header different from the secret. -/
theorem empty_api_key_gets_401_not_403 :
    serveSecured (some "sec") serverEnvDemo .health (some "") = ⟨401, authMissingBody⟩ ∧
    (some "" : Option String) ≠ some "sec" ∧ (401 : Nat) ≠ 403 := by
  refine ⟨rfl, by decide, by decide⟩

/-- Claim C10: with non-blank key and recipient,
`mintTextNFTWithPrivateKey` returns exactly what `mintTextNFT` with
`performMint = true` returns, and when the delegated call throws with
message `m` it rethrows `"Failed to mint NFT: " ++ m` (the prefix thus
appearing twice on delegation errors). -/
theorem withPrivateKey_delegates (env : MintEnv) (text : String)
    (pk toAddr desc : Option String) (now : String)
    (hpk : jsMissingOrBlank pk = false) (hto : jsMissingOrBlank toAddr = false) :
    (∀ r log, mintTextNFT env text true pk toAddr desc now = (.ok r, log) →
      mintTextNFTWithPrivateKey env text pk toAddr desc now = (.ok r, log)) ∧
    (∀ m log, mintTextNFT env text true pk toAddr desc now = (.error m, log) →
      mintTextNFTWithPrivateKey env text pk toAddr desc now =
        (.error ("Failed to mint NFT: " ++ m), log)) := by
  constructor
  · intro r log h
    simp [mintTextNFTWithPrivateKey, hpk, hto, h]
  · intro m log h
    simp [mintTextNFTWithPrivateKey, hpk, hto, h]

/-- Witness for C10: a successful delegated mint is passed through
unchanged. -/
theorem withPrivateKey_delegates_witness :
    mintTextNFTWithPrivateKey mintEnvOk "t" (some pk64) (some "0xto") none "now" =
      (.ok (.minted (some "0x07") "0xhash" "0xto" (buildMetadata "t" none "now")),
       [.getContract, .privateKeyToAccount, .prepareContractCall, .sendTransaction]) :=
  (withPrivateKey_delegates mintEnvOk "t" (some pk64) (some "0xto") none "now"
    (by decide) (by decide)).1
    (.minted (some "0x07") "0xhash" "0xto" (buildMetadata "t" none "now"))
    [.getContract, .privateKeyToAccount, .prepareContractCall, .sendTransaction] rfl

/-- Claim C1: with the balance read succeeding, the enumerator returns
(never throws) the successfully resolved tokens in ascending index order,
skipping every index whose resolution throws; in particular with three
tokens where index 1 throws, the result is exactly the entries of indices
0 and 2 in that order. -/
theorem getWalletNFTs_isolation (env : EnumEnv) (n : Nat)
    (hc : env.getContract = .ok ()) (hb : env.balanceOf = .ok n) :
    getWalletNFTs env =
      .ok ((List.range n).filterMap fun i => (resolveToken env i).toOption) ∧
    (∀ a c e, n = 3 → resolveToken env 0 = .ok a → resolveToken env 1 = .error e →
      resolveToken env 2 = .ok c → getWalletNFTs env = .ok [a, c]) := by
  have h1 : getWalletNFTs env =
      .ok ((List.range n).filterMap fun i => (resolveToken env i).toOption) := by
    simp [getWalletNFTs, hc, hb]
  refine ⟨h1, ?_⟩
  rintro a c e rfl h0 hf h2
  rw [h1]
  simp [show List.range 3 = [0, 1, 2] from rfl, h0, hf, h2, Except.toOption]

/-- Witness for C1 at a three-token wallet whose index 1 throws. -/
theorem getWalletNFTs_isolation_witness :
    getWalletNFTs enumEnvDemo =
      .ok [⟨"100", .str "Token #100", .str "No metadata available", .arr []⟩,
           ⟨"102", .str "Token #102", .str "No metadata available", .arr []⟩] :=
  (getWalletNFTs_isolation enumEnvDemo 3 rfl rfl).2
    ⟨"100", .str "Token #100", .str "No metadata available", .arr []⟩
    ⟨"102", .str "Token #102", .str "No metadata available", .arr []⟩
    "execution reverted" rfl rfl rfl rfl

/-! ### The success-field invariant -/

theorem contractHandler_success (env : InfoEnv) (a : String) :
    ∃ b, (contractHandler env a).body.lookup "success" = some (.bool b) := by
  unfold contractHandler
  split <;> exact ⟨_, rfl⟩

theorem prepareHandler_success (env : MintEnv) (now : String) (text : Option String) :
    ∃ b, (prepareHandler env now text).body.lookup "success" = some (.bool b) := by
  unfold prepareHandler
  repeat' split
  all_goals exact ⟨_, rfl⟩

theorem mintTextHandler_success (env : MintEnv) (now : String)
    (text pk toAddr : Option String) :
    ∃ b, (mintTextHandler env now text pk toAddr).1.body.lookup "success" =
      some (.bool b) := by
  unfold mintTextHandler mintedBody
  repeat' split
  all_goals exact ⟨_, rfl⟩

theorem nftsPostHandler_success (env : EnumEnv) (w : Option String) :
    ∃ b, (nftsPostHandler env w).body.lookup "success" = some (.bool b) := by
  unfold nftsPostHandler
  dsimp only
  repeat' split
  all_goals exact ⟨_, rfl⟩

theorem nftsGetHandler_success (env : EnumEnv) (w : String) :
    ∃ b, (nftsGetHandler env w).body.lookup "success" = some (.bool b) := by
  unfold nftsGetHandler
  repeat' split
  all_goals exact ⟨_, rfl⟩

theorem testKeyHandler_success (f : String → Except String String)
    (pk : Option String) :
    ∃ b, (testKeyHandler f pk).1.body.lookup "success" = some (.bool b) := by
  unfold testKeyHandler
  repeat' split
  all_goals exact ⟨_, rfl⟩

/-- Claim C9 (amended): every JSON response of the secured HTTP surface
carries a boolean `success` field, except the health endpoint's body,
which has none. -/
theorem responses_have_success_except_health (secret : Option String)
    (env : ServerEnv) (r : Route) (key : Option String) :
    (r = .health ∧ validateApiKey key secret = .proceed) ∨
    ∃ b, (serveSecured secret env r key).body.lookup "success" = some (.bool b) := by
  cases hv : validateApiKey key secret with
  | unauthorized => exact .inr ⟨false, by simp [serveSecured, hv, authMissingBody]⟩
  | forbidden => exact .inr ⟨false, by simp [serveSecured, hv, authInvalidBody]⟩
  | proceed =>
    cases r with
    | health => exact .inl ⟨rfl, rfl⟩
    | contract =>
      exact .inr (by simpa [serveSecured, hv, routeDispatch] using
        contractHandler_success env.info env.contractAddress)
    | mintPrepare text =>
      exact .inr (by simpa [serveSecured, hv, routeDispatch] using
        prepareHandler_success env.mint env.now text)
    | mintText text pk toAddr =>
      exact .inr (by simpa [serveSecured, hv, routeDispatch] using
        mintTextHandler_success env.mint env.now text pk toAddr)
    | nftsPost w =>
      exact .inr (by simpa [serveSecured, hv, routeDispatch] using
        nftsPostHandler_success env.enum w)
    | nftsGet w =>
      exact .inr (by simpa [serveSecured, hv, routeDispatch] using
        nftsGetHandler_success env.enum w)
    | testPrivateKey pk =>
      exact .inr (by simpa [serveSecured, hv, routeDispatch] using
        testKeyHandler_success env.pkToAccount pk)

/-- Counterexample to C9 as stated: the health route's JSON body has no
`success` field at all, while e.g. the contract route's does. -/
theorem health_response_lacks_success :
    (serveSecured (some "sec") serverEnvDemo .health (some "sec")).body.lookup "success"
      = none ∧
    (serveSecured (some "sec") serverEnvDemo .contract (some "sec")).body.lookup "success"
      = some (.bool true) :=
  ⟨rfl, rfl⟩

/-! ### Base64 and UTF-8 round trips -/

theorem b64Val_b64Char : ∀ n < 64, b64Val (b64Char n) = some n := by decide

theorem b64Val_pad : b64Val '=' = none := by decide

theorem base64_roundtrip : ∀ l : List Nat, (∀ b ∈ l, b < 256) →
    base64Decode (base64Encode l) = l := by
  intro l
  induction l using base64Encode.induct with
  | case1 => intro _; rfl
  | case2 a =>
    intro h
    have ha := h a (by simp)
    unfold base64Decode base64Encode
    rw [List.filterMap_cons, b64Val_b64Char (a / 4) (by omega),
      List.filterMap_cons, b64Val_b64Char (a % 4 * 16) (by omega)]
    simp [b64Val_pad, b64Bytes]
    omega
  | case3 a b =>
    intro h
    have ha := h a (by simp)
    have hb := h b (by simp)
    unfold base64Decode base64Encode
    rw [List.filterMap_cons, b64Val_b64Char (a / 4) (by omega),
      List.filterMap_cons, b64Val_b64Char (a % 4 * 16 + b / 16) (by omega),
      List.filterMap_cons, b64Val_b64Char (b % 16 * 4) (by omega)]
    simp [b64Val_pad, b64Bytes]
    constructor <;> omega
  | case4 a b c rest ih =>
    intro h
    have ha := h a (by simp)
    have hb := h b (by simp)
    have hc := h c (by simp)
    have hrest : ∀ x ∈ rest, x < 256 := fun x hx => h x (by simp [hx])
    unfold base64Decode base64Encode
    rw [List.filterMap_cons, b64Val_b64Char (a / 4) (by omega),
      List.filterMap_cons, b64Val_b64Char (a % 4 * 16 + b / 16) (by omega),
      List.filterMap_cons, b64Val_b64Char (b % 16 * 4 + c / 64) (by omega),
      List.filterMap_cons, b64Val_b64Char (c % 64) (by omega)]
    rw [b64Bytes]
    have hr := ih hrest
    unfold base64Decode at hr
    rw [hr]
    simp only [List.cons.injEq]
    refine ⟨by omega, by omega, by omega, trivial⟩

theorem char_toNat_lt (c : Char) : c.toNat < 1114112 := by
  have h := c.valid
  rcases h with h | ⟨h1, h2⟩
  · have : c.val.toNat < 55296 := h
    simp [Char.toNat]
    omega
  · have : c.val.toNat < 1114112 := h2
    simp [Char.toNat]
    omega

theorem utf8_roundtrip : ∀ l : List Char, utf8Decode (utf8Encode l) = some l := by
  intro l
  induction l with
  | nil => simp [utf8Encode, utf8Decode]
  | cons c cs ih =>
    have hlt := char_toNat_lt c
    have hofnat : Char.ofNat c.toNat = c := Char.ofNat_toNat c
    rw [utf8Encode]
    by_cases h1 : c.toNat < 0x80
    · rw [show utf8EncodeChar c = [c.toNat] from by simp [utf8EncodeChar, h1]]
      simp only [List.cons_append, List.nil_append]
      rw [utf8Decode]
      rw [show utf8ContCount c.toNat = some 0 from by unfold utf8ContCount; rw [if_pos h1]]
      simp [ih, hofnat, utf8Val]
    · by_cases h2 : c.toNat < 0x800
      · rw [show utf8EncodeChar c = [0xC0 + c.toNat / 64, 0x80 + c.toNat % 64] from by
          simp [utf8EncodeChar, h1, h2]]
        simp only [List.cons_append, List.nil_append]
        rw [utf8Decode]
        rw [show utf8ContCount (0xC0 + c.toNat / 64) = some 1 from by
          unfold utf8ContCount
          rw [if_neg (by omega), if_neg (by omega), if_pos (by omega)]]
        have hc1 : utf8Cont (0x80 + c.toNat % 64) = true := by
          simp [utf8Cont]
          omega
        simp [hc1, ih, utf8Val]
        rw [show c.toNat / 64 * 64 + c.toNat % 64 = c.toNat from by omega, hofnat]
      · by_cases h3 : c.toNat < 0x10000
        · rw [show utf8EncodeChar c =
              [0xE0 + c.toNat / 4096, 0x80 + c.toNat / 64 % 64, 0x80 + c.toNat % 64] from by
            simp [utf8EncodeChar, h1, h2, h3]]
          simp only [List.cons_append, List.nil_append]
          rw [utf8Decode]
          rw [show utf8ContCount (0xE0 + c.toNat / 4096) = some 2 from by
            unfold utf8ContCount
            rw [if_neg (by omega), if_neg (by omega), if_neg (by omega), if_pos (by omega)]]
          have hc1 : utf8Cont (0x80 + c.toNat / 64 % 64) = true := by
            simp [utf8Cont]
            omega
          have hc2 : utf8Cont (0x80 + c.toNat % 64) = true := by
            simp [utf8Cont]
            omega
          simp [hc1, hc2, ih, utf8Val]
          rw [show c.toNat / 4096 * 4096 + c.toNat / 64 % 64 * 64 + c.toNat % 64 = c.toNat
            from by omega, hofnat]
        · rw [show utf8EncodeChar c =
              [0xF0 + c.toNat / 262144, 0x80 + c.toNat / 4096 % 64,
               0x80 + c.toNat / 64 % 64, 0x80 + c.toNat % 64] from by
            simp [utf8EncodeChar, h1, h2, h3]]
          simp only [List.cons_append, List.nil_append]
          rw [utf8Decode]
          rw [show utf8ContCount (0xF0 + c.toNat / 262144) = some 3 from by
            unfold utf8ContCount
            rw [if_neg (by omega), if_neg (by omega), if_neg (by omega), if_neg (by omega),
              if_pos (by omega)]]
          have hc1 : utf8Cont (0x80 + c.toNat / 4096 % 64) = true := by
            simp [utf8Cont]
            omega
          have hc2 : utf8Cont (0x80 + c.toNat / 64 % 64) = true := by
            simp [utf8Cont]
            omega
          have hc3 : utf8Cont (0x80 + c.toNat % 64) = true := by
            simp [utf8Cont]
            omega
          simp [hc1, hc2, hc3, ih, utf8Val]
          rw [show c.toNat / 262144 * 262144 + c.toNat / 4096 % 64 * 4096 +
            c.toNat / 64 % 64 * 64 + c.toNat % 64 = c.toNat from by omega, hofnat]

theorem utf8Encode_bytes_lt : ∀ l : List Char, ∀ b ∈ utf8Encode l, b < 256 := by
  intro l
  induction l with
  | nil => simp [utf8Encode]
  | cons c cs ih =>
    intro b hb
    rw [utf8Encode] at hb
    rcases List.mem_append.mp hb with h | h
    · have hlt := char_toNat_lt c
      unfold utf8EncodeChar at h
      by_cases h1 : c.toNat < 0x80
      · simp [h1] at h
        omega
      · by_cases h2 : c.toNat < 0x800
        · simp [h1, h2] at h
          rcases h with rfl | rfl <;> omega
        · by_cases h3 : c.toNat < 0x10000
          · simp [h1, h2, h3] at h
            rcases h with rfl | rfl | rfl <;> omega
          · simp [h1, h2, h3] at h
            rcases h with rfl | rfl | rfl | rfl <;> omega
    · exact ih b h

/-! ### String-literal round trip: JSON.stringify escaping vs the parser -/

theorem hexVal_hexDigitChar : ∀ d < 16, hexVal (hexDigitChar d) = some d := by decide

theorem psbGo_norm_quote (acc l) :
    psbGo (.norm acc) ('"' :: l) = some (acc.reverse, l) := rfl

theorem psbGo_norm_bs (acc l) :
    psbGo (.norm acc) ('\\' :: l) = psbGo (.esc acc) l := rfl

theorem psbGo_esc_quote (acc l) :
    psbGo (.esc acc) ('"' :: l) = psbGo (.norm ('"' :: acc)) l := rfl

theorem psbGo_esc_bs (acc l) :
    psbGo (.esc acc) ('\\' :: l) = psbGo (.norm ('\\' :: acc)) l := rfl

theorem psbGo_esc_b (acc l) :
    psbGo (.esc acc) ('b' :: l) = psbGo (.norm ('\x08' :: acc)) l := rfl

theorem psbGo_esc_f (acc l) :
    psbGo (.esc acc) ('f' :: l) = psbGo (.norm ('\x0c' :: acc)) l := rfl

theorem psbGo_esc_n (acc l) :
    psbGo (.esc acc) ('n' :: l) = psbGo (.norm ('\n' :: acc)) l := rfl

theorem psbGo_esc_r (acc l) :
    psbGo (.esc acc) ('r' :: l) = psbGo (.norm ('\r' :: acc)) l := rfl

theorem psbGo_esc_t (acc l) :
    psbGo (.esc acc) ('t' :: l) = psbGo (.norm ('\t' :: acc)) l := rfl

theorem psbGo_esc_u (acc l) :
    psbGo (.esc acc) ('u' :: l) = psbGo (.hex acc 0 0) l := rfl

theorem psbGo_norm_lit (acc l) (c : Char) (h1 : ¬c = '"') (h2 : ¬c = '\\')
    (h3 : ¬c.toNat < 32) :
    psbGo (.norm acc) (c :: l) = psbGo (.norm (c :: acc)) l := by
  rw [psbGo]
  rw [if_neg h1, if_neg h2, if_neg h3]

theorem psbGo_hex_step (acc l) (val count : Nat) (h : Char) (d : Nat)
    (hd : hexVal h = some d) (hc : ¬count = 3) :
    psbGo (.hex acc val count) (h :: l) =
      psbGo (.hex acc (val * 16 + d) (count + 1)) l := by
  rw [psbGo, hd]
  simp [hc]

theorem psbGo_hex_done (acc l) (val : Nat) (h : Char) (d : Nat)
    (hd : hexVal h = some d) :
    psbGo (.hex acc val 3) (h :: l) =
      psbGo (.norm (Char.ofNat (val * 16 + d) :: acc)) l := by
  rw [psbGo, hd]
  simp

theorem psbGo_escape (cs : List Char) : ∀ acc rest : List Char,
    psbGo (.norm acc) (escapeBody cs ++ '"' :: rest) =
      some (acc.reverse ++ cs, rest) := by
  induction cs with
  | nil =>
    intro acc rest
    rw [escapeBody, List.nil_append, psbGo_norm_quote]
    simp
  | cons c cs ih =>
    intro acc rest
    rw [escapeBody, List.append_assoc]
    by_cases h1 : c = '"'
    · subst h1
      rw [show escapeChar '"' = ['\\', '"'] from rfl]
      simp only [List.cons_append, List.nil_append]
      rw [psbGo_norm_bs, psbGo_esc_quote, ih]
      simp
    · by_cases h2 : c = '\\'
      · subst h2
        rw [show escapeChar '\\' = ['\\', '\\'] from rfl]
        simp only [List.cons_append, List.nil_append]
        rw [psbGo_norm_bs, psbGo_esc_bs, ih]
        simp
      · by_cases h3 : c = '\x08'
        · subst h3
          rw [show escapeChar '\x08' = ['\\', 'b'] from rfl]
          simp only [List.cons_append, List.nil_append]
          rw [psbGo_norm_bs, psbGo_esc_b, ih]
          simp
        · by_cases h4 : c = '\t'
          · subst h4
            rw [show escapeChar '\t' = ['\\', 't'] from rfl]
            simp only [List.cons_append, List.nil_append]
            rw [psbGo_norm_bs, psbGo_esc_t, ih]
            simp
          · by_cases h5 : c = '\n'
            · subst h5
              rw [show escapeChar '\n' = ['\\', 'n'] from rfl]
              simp only [List.cons_append, List.nil_append]
              rw [psbGo_norm_bs, psbGo_esc_n, ih]
              simp
            · by_cases h6 : c = '\x0c'
              · subst h6
                rw [show escapeChar '\x0c' = ['\\', 'f'] from rfl]
                simp only [List.cons_append, List.nil_append]
                rw [psbGo_norm_bs, psbGo_esc_f, ih]
                simp
              · by_cases h7 : c = '\r'
                · subst h7
                  rw [show escapeChar '\r' = ['\\', 'r'] from rfl]
                  simp only [List.cons_append, List.nil_append]
                  rw [psbGo_norm_bs, psbGo_esc_r, ih]
                  simp
                · by_cases h8 : c.toNat < 32
                  · rw [show escapeChar c =
                        ['\\', 'u', '0', '0', hexDigitChar (c.toNat / 16),
                         hexDigitChar (c.toNat % 16)] from by
                      rw [escapeChar]
                      rw [if_neg h1, if_neg h2, if_neg h3, if_neg h4, if_neg h5,
                        if_neg h6, if_neg h7, if_pos h8]]
                    simp only [List.cons_append, List.nil_append]
                    rw [psbGo_norm_bs, psbGo_esc_u]
                    rw [psbGo_hex_step _ _ _ _ '0' 0 (by decide) (by decide)]
                    rw [psbGo_hex_step _ _ _ _ '0' 0 (by decide) (by decide)]
                    rw [psbGo_hex_step _ _ _ _ _ _
                      (hexVal_hexDigitChar (c.toNat / 16) (by omega)) (by decide)]
                    rw [psbGo_hex_done _ _ _ _ _
                      (hexVal_hexDigitChar (c.toNat % 16) (by omega))]
                    rw [show (((0 * 16 + 0) * 16 + 0) * 16 + c.toNat / 16) * 16 +
                      c.toNat % 16 = c.toNat from by omega]
                    rw [Char.ofNat_toNat, ih]
                    simp
                  · rw [show escapeChar c = [c] from by
                      rw [escapeChar]
                      rw [if_neg h1, if_neg h2, if_neg h3, if_neg h4, if_neg h5,
                        if_neg h6, if_neg h7, if_neg h8]]
                    simp only [List.cons_append, List.nil_append]
                    rw [psbGo_norm_lit _ _ _ h1 h2 h8, ih]
                    simp

/-- The parser's string-literal read inverts `JSON.stringify` escaping. -/
theorem parseStringBody_escape (cs rest : List Char) :
    parseStringBody (escapeBody cs ++ '"' :: rest) = some (cs, rest) := by
  rw [parseStringBody, psbGo_escape]
  simp

/-! ### Parsing the stringified metadata -/

theorem pv_quote (f : Nat) (l : List Char) :
    parseValue (f + 1) ('"' :: l) =
      (parseStringBody l).map (fun p => (Json.str ⟨p.1⟩, p.2)) := rfl

theorem pv_obj (f : Nat) (l : List Char) :
    parseValue (f + 1) ('\x7b' :: l) = parseObjBody f l := rfl

theorem pv_arr (f : Nat) (l : List Char) :
    parseValue (f + 1) ('[' :: l) = parseArrBody f l := rfl

theorem pob_quote (f : Nat) (l : List Char) :
    parseObjBody (f + 1) ('"' :: l) = parseMembers f ('"' :: l) [] := rfl

theorem pab_obj (f : Nat) (l : List Char) :
    parseArrBody (f + 1) ('\x7b' :: l) = parseElems f ('\x7b' :: l) [] := rfl

/-- A string value in place: quoted escaped body, parsed back. -/
theorem pv_strVal (f : Nat) (s : String) (tail : List Char) :
    parseValue (f + 1) ('"' :: (escapeBody s.data ++ '"' :: tail)) =
      some (.str s, tail) := by
  rw [pv_quote, parseStringBody_escape]
  rfl

theorem pm_step (f : Nat) (l r2 r3 : List Char) (acc : List (String × Json))
    (k : List Char) (v : Json)
    (h1 : parseStringBody l = some (k, ':' :: r2))
    (h2 : parseValue f r2 = some (v, ',' :: r3)) :
    parseMembers (f + 1) ('"' :: l) acc = parseMembers f r3 (acc ++ [(⟨k⟩, v)]) := by
  simp [parseMembers, skipWs, jsonWs, h1, h2]

theorem pm_last (f : Nat) (l r2 r3 : List Char) (acc : List (String × Json))
    (k : List Char) (v : Json)
    (h1 : parseStringBody l = some (k, ':' :: r2))
    (h2 : parseValue f r2 = some (v, '\x7d' :: r3)) :
    parseMembers (f + 1) ('"' :: l) acc = some (.obj (acc ++ [(⟨k⟩, v)]), r3) := by
  simp [parseMembers, skipWs, jsonWs, h1, h2]

theorem pe_step (f : Nat) (l r2 : List Char) (acc : List Json) (v : Json)
    (h : parseValue f l = some (v, ',' :: r2)) :
    parseElems (f + 1) l acc = parseElems f r2 (acc ++ [v]) := by
  rw [parseElems, h]
  rfl

theorem pe_last (f : Nat) (l r2 : List Char) (acc : List Json) (v : Json)
    (h : parseValue f l = some (v, ']' :: r2)) :
    parseElems (f + 1) l acc = some (.arr (acc ++ [v]), r2) := by
  rw [parseElems, h]
  rfl

theorem psb_key_name (r : List Char) :
    parseStringBody ('n' :: 'a' :: 'm' :: 'e' :: '"' :: r) =
      some (['n', 'a', 'm', 'e'], r) := rfl

theorem psb_key_description (r : List Char) :
    parseStringBody ('d' :: 'e' :: 's' :: 'c' :: 'r' :: 'i' :: 'p' :: 't' :: 'i' ::
      'o' :: 'n' :: '"' :: r) =
      some (['d', 'e', 's', 'c', 'r', 'i', 'p', 't', 'i', 'o', 'n'], r) := rfl

theorem psb_key_attributes (r : List Char) :
    parseStringBody ('a' :: 't' :: 't' :: 'r' :: 'i' :: 'b' :: 'u' :: 't' :: 'e' ::
      's' :: '"' :: r) =
      some (['a', 't', 't', 'r', 'i', 'b', 'u', 't', 'e', 's'], r) := rfl

theorem psb_key_traitType (r : List Char) :
    parseStringBody ('t' :: 'r' :: 'a' :: 'i' :: 't' :: '_' :: 't' :: 'y' :: 'p' ::
      'e' :: '"' :: r) =
      some (['t', 'r', 'a', 'i', 't', '_', 't', 'y', 'p', 'e'], r) := rfl

theorem psb_key_value (r : List Char) :
    parseStringBody ('v' :: 'a' :: 'l' :: 'u' :: 'e' :: '"' :: r) =
      some (['v', 'a', 'l', 'u', 'e'], r) := rfl

/-- One attribute object in place. -/
theorem pv_attrObj (f : Nat) (a : NftAttribute) (tail : List Char) :
    parseValue (f + 5) (stringifyAttribute a ++ tail) =
      some (.obj [("trait_type", .str a.trait_type), ("value", .str a.value)],
        tail) := by
  have e1 : stringifyAttribute a ++ tail =
      '\x7b' :: ('"' :: 't' :: 'r' :: 'a' :: 'i' :: 't' :: '_' :: 't' :: 'y' :: 'p' ::
        'e' :: '"' :: ':' ::
        ('"' :: (escapeBody a.trait_type.data ++ '"' ::
          (',' :: '"' :: 'v' :: 'a' :: 'l' :: 'u' :: 'e' :: '"' :: ':' ::
            ('"' :: (escapeBody a.value.data ++ '"' :: ('\x7d' :: tail))))))) := by
    simp [stringifyAttribute, jsonQuote]
  rw [e1, pv_obj, pob_quote]
  rw [pm_step (f + 2) _ _ _ _ ['t', 'r', 'a', 'i', 't', '_', 't', 'y', 'p', 'e']
    (.str a.trait_type) (psb_key_traitType _) (pv_strVal (f + 1) a.trait_type _)]
  rw [pm_last (f + 1) _ _ _ _ ['v', 'a', 'l', 'u', 'e'] (.str a.value)
    (psb_key_value _) (pv_strVal f a.value _)]
  rfl

/-- Entering the attribute array: the first element starts with `{`. -/
theorem pab_attrs (f : Nat) (a : NftAttribute) (tail : List Char) :
    parseArrBody (f + 1) (stringifyAttribute a ++ tail) =
      parseElems f (stringifyAttribute a ++ tail) [] := by
  have e : stringifyAttribute a ++ tail =
      '\x7b' :: (("\"trait_type\":".data ++ jsonQuote a.trait_type ++
        ",\"value\":".data ++ jsonQuote a.value ++ ['\x7d']) ++ tail) := by
    simp [stringifyAttribute]
  rw [e, pab_obj, ← e]

/-- The full stringified metadata parses back to its JSON value. -/
theorem parse_stringifyMetadata (m : NftMetadata) (a1 a2 : NftAttribute)
    (hattr : m.attributes = [a1, a2]) (f : Nat) (rest : List Char) :
    parseValue (f + 14) (stringifyMetadata m ++ rest) =
      some (metadataJson m, rest) := by
  have e1 : stringifyMetadata m ++ rest =
      '\x7b' :: ('"' :: 'n' :: 'a' :: 'm' :: 'e' :: '"' :: ':' ::
        ('"' :: (escapeBody m.name.data ++ '"' ::
          (',' :: '"' :: 'd' :: 'e' :: 's' :: 'c' :: 'r' :: 'i' :: 'p' :: 't' :: 'i' ::
            'o' :: 'n' :: '"' :: ':' ::
            ('"' :: (escapeBody m.description.data ++ '"' ::
              (',' :: '"' :: 'a' :: 't' :: 't' :: 'r' :: 'i' :: 'b' :: 'u' :: 't' ::
                'e' :: 's' :: '"' :: ':' ::
                ('[' :: (stringifyAttribute a1 ++
                  (',' :: (stringifyAttribute a2 ++
                    (']' :: '\x7d' :: rest)))))))))))) := by
    simp [stringifyMetadata, hattr, jsonQuote, List.intercalate, List.intersperse]
  rw [e1, pv_obj, pob_quote]
  rw [pm_step (f + 11) _ _ _ _ ['n', 'a', 'm', 'e'] (.str m.name)
    (psb_key_name _) (pv_strVal (f + 10) m.name _)]
  rw [pm_step (f + 10) _ _ _ _
    ['d', 'e', 's', 'c', 'r', 'i', 'p', 't', 'i', 'o', 'n'] (.str m.description)
    (psb_key_description _) (pv_strVal (f + 9) m.description _)]
  have harr : parseValue (f + 9)
      ('[' :: (stringifyAttribute a1 ++ (',' :: (stringifyAttribute a2 ++
        (']' :: '\x7d' :: rest))))) =
      some (.arr [.obj [("trait_type", .str a1.trait_type), ("value", .str a1.value)],
        .obj [("trait_type", .str a2.trait_type), ("value", .str a2.value)]],
        '\x7d' :: rest) := by
    rw [pv_arr, pab_attrs]
    rw [pe_step (f + 6) _ _ _ _ (pv_attrObj (f + 1) a1 _)]
    rw [pe_last (f + 5) _ _ _ _ (pv_attrObj f a2 _)]
    rfl
  rw [pm_last (f + 9) _ _ _ _
    ['a', 't', 't', 'r', 'i', 'b', 'u', 't', 'e', 's'] _ (psb_key_attributes _) harr]
  rw [metadataJson, hattr]
  rfl

theorem stringifyMetadata_length (m : NftMetadata) :
    13 ≤ (stringifyMetadata m).length := by
  simp [stringifyMetadata]
  omega

/-- `JSON.parse` of the stringified metadata. -/
theorem jsonParse_stringifyMetadata (m : NftMetadata) (a1 a2 : NftAttribute)
    (hattr : m.attributes = [a1, a2]) :
    jsonParse (stringifyMetadata m) = some (metadataJson m) := by
  have hlen := stringifyMetadata_length m
  obtain ⟨g, hg⟩ : ∃ g, (stringifyMetadata m).length + 1 = g + 14 :=
    ⟨(stringifyMetadata m).length - 13, by omega⟩
  rw [jsonParse, hg]
  have h := parse_stringifyMetadata m a1 a2 hattr g []
  rw [List.append_nil] at h
  rw [h]
  rfl

/-- Claim C5: stripping the `data:application/json;base64,` marker from
the URI produced by the Metadata Builder, base64-decoding the remainder,
reading it as UTF-8 and `JSON.parse`-ing it yields exactly the metadata
object that was encoded (the enumerator's decode inverts the builder's
encode), and the produced URI does carry the marker. -/
theorem metadata_uri_roundtrip (text : String) (description : Option String)
    (now : String) :
    decodeTokenUriJson (metadataToUri (buildMetadata text description now)) =
      some (metadataJson (buildMetadata text description now)) ∧
    jsStartsWith (metadataToUri (buildMetadata text description now)) dataUriPfx
      = true := by
  constructor
  · rw [decodeTokenUriJson, metadataToUri]
    rw [show (⟨dataUriPfx.data ++
        base64Encode (utf8Encode (stringifyMetadata (buildMetadata text description
          now)))⟩ : String).data =
      dataUriPfx.data ++ base64Encode (utf8Encode (stringifyMetadata
        (buildMetadata text description now))) from rfl]
    rw [show jsLength dataUriPfx = dataUriPfx.data.length from rfl]
    rw [List.drop_left]
    rw [base64_roundtrip _ (utf8Encode_bytes_lt _)]
    rw [utf8_roundtrip]
    exact jsonParse_stringifyMetadata _ ⟨"Text", text⟩ ⟨"Created At", now⟩ rfl
  · rw [jsStartsWith, metadataToUri]
    exact List.isPrefixOf_iff_prefix.mpr (List.prefix_append _ _)

end Cruxz
